import Mathlib

/-!
Verification development for the docker2aci converter (docker2aci.go).

Go strings are embedded as lists of characters (`GoStr`); the Go standard
library string operations used by the source (strings.Split, strings.SplitN
with n = 2, strings.Join, strings.TrimSpace, strings.Index with a one-character
needle) are defined below, and HTTP requests/responses are embedded as explicit
data so that each registry operation becomes a pure function of the response it
received.  Fallible Go functions returning (T, error) become `Except GoStr T`.
-/

/-- Go strings, embedded as lists of characters. -/
abbrev GoStr := List Char

/-- Coerce a Lean string literal into the Go-string embedding. -/
def gs (s : String) : GoStr := s.data

/-- Go strings.Split with a one-character separator: always returns at least
one (possibly empty) part; `n` separators yield `n+1` parts. -/
def goSplit (sep : Char) : GoStr → List GoStr
  | [] => [[]]
  | c :: cs =>
    let r := goSplit sep cs
    if c = sep then [] :: r
    else
      match r with
      | [] => [[c]]
      | p :: ps => (c :: p) :: ps

/-- Go strings.Join with a one-character separator. -/
def goJoin (sep : Char) (parts : List GoStr) : GoStr :=
  List.intercalate [sep] parts

/-- Go strings.SplitN with n = 2 and a one-character separator: at most one
split, at the first occurrence of the separator. -/
def goSplitN2 (sep : Char) (s : GoStr) : List GoStr :=
  match goSplit sep s with
  | [] => []
  | a :: rest => if rest.isEmpty then [a] else [a, goJoin sep rest]

/-- Whitespace characters recognised by the embedding of strings.TrimSpace
(the ASCII subset of Unicode White_Space, which covers every header value the
source handles). -/
def goIsSpace (c : Char) : Bool :=
  c = ' ' || c = '\t' || c = '\n' || c = '\r' || c = '\x0b' || c = '\x0c'

/-- Go strings.TrimSpace: drop leading and trailing whitespace. -/
def goTrimSpace (s : GoStr) : GoStr :=
  ((s.dropWhile goIsSpace).reverse.dropWhile goIsSpace).reverse

/-- Decimal rendering of a natural number, as produced by fmt's %d verb for
the non-negative HTTP status codes the source formats. -/
def goNatStr (n : Nat) : GoStr := Nat.toDigits 10 n

/-- The constants of docker2aci.go. -/
def defaultIndex : GoStr := gs "index.docker.io"

def defaultTag : GoStr := gs "latest"

def schemaVersion : GoStr := gs "0.1.1"

/-- The parsed form of the command-line reference string. -/
structure DockerURL where
  IndexURL : GoStr
  ImageName : GoStr
  Tag : GoStr
  deriving DecidableEq, Repr

/-- parseArgument (docker2aci.go:295-326): split the argument once on "/"; if
the first part contains a dot it is the index host; then split the remainder on
":" and take the last part as the tag when a colon is present. -/
def parseArgument (arg : GoStr) : DockerURL :=
  let argParts := goSplitN2 '/' arg
  let state :=
    match argParts with
    | [] => (defaultIndex, ([] : GoStr))
    | [a] => (defaultIndex, a)
    | a :: rest =>
      if '.' ∈ a then (a, goJoin '/' rest)
      else (defaultIndex, goJoin '/' (a :: rest))
  let indexURL := state.1
  let appString := state.2
  let appParts := goSplit ':' appString
  match appParts.reverse with
  | [] => { IndexURL := indexURL, ImageName := appString, Tag := defaultTag }
  | [_] => { IndexURL := indexURL, ImageName := appString, Tag := defaultTag }
  | t :: rest =>
    { IndexURL := indexURL, ImageName := goJoin ':' rest.reverse, Tag := t }

/-! ## Registry client embedding

Each registry operation is a pure function of the HTTP response it received;
the transport itself (net/http) is outside the program.  A header map is a
list of key/value-list pairs; `headerGet` is Go's http.Header.Get (first value
or ""), `headerValues` the direct map access `res.Header[key]`. -/

/-- An HTTP response: status code, header map, and fully-read body. -/
structure Response where
  statusCode : Nat
  headers : List (GoStr × List GoStr)
  body : GoStr
  deriving Repr

/-- Go http.Header.Get: first value associated with the key, or "". -/
def headerGet (hs : List (GoStr × List GoStr)) (key : GoStr) : GoStr :=
  match hs.lookup key with
  | some (v :: _) => v
  | _ => []

/-- Go direct header map access `res.Header[key]`: all values, or nil. -/
def headerValues (hs : List (GoStr × List GoStr)) (key : GoStr) : List GoStr :=
  (hs.lookup key).getD []

/-- The token and endpoint objects returned by repository discovery. -/
structure RepoData where
  Tokens : List GoStr
  Endpoints : List GoStr
  deriving Repr

/-- makeEndpointsList (docker2aci.go:59-73): for each header value, split on
commas and wrap each trimmed element as an HTTPS v1 base URL, appending in
order. -/
def makeEndpointsList (headers : List GoStr) : List GoStr :=
  headers.foldl
    (fun acc ep =>
      acc ++ (goSplit ',' ep).map
        (fun endpointEl => gs "https://" ++ goTrimSpace endpointEl ++ gs "/v1/"))
    []

/-- The repository URL built by GetRepoData (docker2aci.go:77):
fmt.Sprintf with "https:/" then "/"-joined segments. -/
def repositoriesURL (indexURL remote : GoStr) : GoStr :=
  gs "https://" ++ indexURL ++ gs "/v1/repositories/" ++ remote ++ gs "/images"

/-- GetRepoData (docker2aci.go:75-114): on a non-200 status fail with a
message carrying the status and URL; otherwise collect the token header values
(if the first is non-empty) and derive endpoints from the endpoints header,
defaulting to the index host. -/
def GetRepoData (indexURL remote : GoStr) (res : Response) : Except GoStr RepoData :=
  let url := repositoriesURL indexURL remote
  if res.statusCode ≠ 200 then
    .error (gs "HTTP code: " ++ goNatStr res.statusCode ++ gs ", URL: " ++ url)
  else
    let tokens :=
      if headerGet res.headers (gs "X-Docker-Token") ≠ [] then
        headerValues res.headers (gs "X-Docker-Token")
      else []
    let endpoints :=
      if headerGet res.headers (gs "X-Docker-Endpoints") ≠ [] then
        makeEndpointsList (headerValues res.headers (gs "X-Docker-Endpoints"))
      else [indexURL]
    .ok { Tokens := tokens, Endpoints := endpoints }

/-- Go strconv.Atoi on an already sign-stripped-or-signed decimal string:
optional one sign character followed by at least one digit. -/
def goAtoi (s : GoStr) : Option Int :=
  let core (ds : GoStr) : Option Nat :=
    if ds ≠ [] ∧ ds.all (·.isDigit) then
      some (ds.foldl (fun n c => n * 10 + (c.toNat - '0'.toNat)) 0)
    else none
  match s with
  | '+' :: rest => (core rest).map Int.ofNat
  | '-' :: rest => (core rest).map (fun n => -(n : Int))
  | _ => (core s).map Int.ofNat

/-- The URL requested by GetRemoteImageJSON (docker2aci.go:118). -/
def imageJSONURL (imgID registry : GoStr) : GoStr :=
  registry ++ gs "images/" ++ imgID ++ gs "/json"

/-- GetRemoteImageJSON (docker2aci.go:116-148): non-200 fails with status and
URL; the size header is optional, its absence yielding the sentinel -1. -/
def GetRemoteImageJSON (imgID registry : GoStr) (res : Response) :
    Except GoStr (GoStr × Int) :=
  if res.statusCode ≠ 200 then
    .error (gs "HTTP code: " ++ goNatStr res.statusCode ++ gs ", URL: " ++
      imageJSONURL imgID registry)
  else
    let hdr := headerGet res.headers (gs "X-Docker-Size")
    if hdr ≠ [] then
      match goAtoi hdr with
      | some n => .ok (res.body, n)
      | none => .error (gs "invalid syntax")
    else .ok (res.body, -1)

/-- The URL requested by GetRemoteLayer (docker2aci.go:152). -/
def layerURL (imgID registry : GoStr) : GoStr :=
  registry ++ gs "images/" ++ imgID ++ gs "/layer"

/-- GetRemoteLayer (docker2aci.go:150-172): non-200 fails with status and URL
(note the ". URL:" separator); otherwise the body stream is returned. -/
def GetRemoteLayer (imgID registry : GoStr) (res : Response) : Except GoStr GoStr :=
  if res.statusCode ≠ 200 then
    .error (gs "HTTP code: " ++ goNatStr res.statusCode ++ gs ". URL: " ++
      layerURL imgID registry)
  else .ok res.body

/-- The URL requested by GetImageIDFromTag (docker2aci.go:176). -/
def tagsURL (registry appName tag : GoStr) : GoStr :=
  registry ++ gs "repositories/" ++ appName ++ gs "/tags/" ++ tag

/-- json.Unmarshal into a Go string, for the bodies the source consumes: a
quoted string with no embedded quotes (image IDs are hex). -/
def goUnmarshalString (s : GoStr) : Option GoStr :=
  match goTrimSpace s with
  | '\x22' :: rest =>
    match rest.reverse with
    | '\x22' :: mid => if '\x22' ∈ mid then none else some mid.reverse
    | _ => none
  | _ => none

/-- GetImageIDFromTag (docker2aci.go:174-205): non-200 fails with status and
URL; otherwise the body is unmarshaled as a JSON string. -/
def GetImageIDFromTag (registry appName tag : GoStr) (res : Response) :
    Except GoStr GoStr :=
  if res.statusCode ≠ 200 then
    .error (gs "HTTP code: " ++ goNatStr res.statusCode ++ gs ". URL: " ++
      tagsURL registry appName tag)
  else
    match goUnmarshalString res.body with
    | some id => .ok id
    | none => .error (gs "Error unmarshaling")

/-- The URL requested by GetAncestry (docker2aci.go:209). -/
def ancestryURL (imgID registry : GoStr) : GoStr :=
  registry ++ gs "images/" ++ imgID ++ gs "/ancestry"

/-- json.Unmarshal into []string, for the bodies the source consumes: a
bracketed comma-separated list of quoted strings (image IDs are hex, so no
embedded commas or quotes). -/
def goUnmarshalStringList (s : GoStr) : Option (List GoStr) :=
  match goTrimSpace s with
  | '[' :: rest =>
    match rest.reverse with
    | ']' :: mid =>
      let inner := mid.reverse
      if goTrimSpace inner = [] then some []
      else (goSplit ',' inner).mapM goUnmarshalString
    | _ => none
  | _ => none

/-- GetAncestry (docker2aci.go:207-237): non-200 fails with status and URL;
otherwise the body is unmarshaled as a JSON array of strings, newest first. -/
def GetAncestry (imgID registry : GoStr) (res : Response) :
    Except GoStr (List GoStr) :=
  if res.statusCode ≠ 200 then
    .error (gs "HTTP code: " ++ goNatStr res.statusCode ++ gs ". URL: " ++
      ancestryURL imgID registry)
  else
    match goUnmarshalStringList res.body with
    | some ancestry => .ok ancestry
    | none => .error (gs "Error unmarshaling")

/-- An HTTP request, reduced to the header map the source manipulates. -/
structure Request where
  headers : List (GoStr × List GoStr)
  deriving Repr

/-- Go http.Header.Set: replace any existing values for the key with the one
given value. -/
def headerSet (hs : List (GoStr × List GoStr)) (key v : GoStr) :
    List (GoStr × List GoStr) :=
  (key, [v]) :: hs.filter (fun kv => kv.1 ≠ key)

/-- setAuthToken (docker2aci.go:239-243): set the Authorization header from
the comma-joined token list only when it is not already set. -/
def setAuthToken (req : Request) (token : List GoStr) : Request :=
  if headerGet req.headers (gs "Authorization") = [] then
    { req with
      headers := headerSet req.headers (gs "Authorization")
        (gs "Token " ++ List.intercalate (gs ",") token) }
  else req

/-! ## Registry client properties -/

/-- A reviewer-facing restatement of the spec's endpoint formula: for each
comma-separated element of each header value, in order, the trimmed element
wrapped as an HTTPS v1 base URL. -/
def endpointsSpecList (headers : List GoStr) : List GoStr :=
  headers.flatMap
    (fun h => (goSplit ',' h).map
      (fun e => gs "https://" ++ goTrimSpace e ++ gs "/v1/"))

/-! ## Manifest synthesis embedding

The appc schema types (ACName, Hash, Label, App, Dependency, ImageManifest)
come from the external appc/spec library; they are modelled here by the
behaviour the source relies on: validation that either rejects a string or
accepts it unchanged. -/

/-- The Docker container config fields the conversion consults; Entrypoint is
carried to record that GenerateManifest never reads it. -/
structure RunConfig where
  Cmd : List GoStr
  Entrypoint : List GoStr
  deriving DecidableEq, Repr

/-- The per-layer Docker JSON fields the conversion consults
(docker2aci.go:27-39, reduced to the fields read by the pipeline). -/
structure DockerImageData where
  ID : GoStr
  Parent : GoStr
  Config : Option RunConfig
  Checksum : GoStr
  deriving DecidableEq, Repr

/-- Characters legal in an AC name in this embedding of appc's types.NewACName:
lowercase ASCII letters, digits, and the separators of the 0.1.1 schema. -/
def isValidACNameChar (c : Char) : Bool :=
  c.isLower || c.isDigit || c = '-' || c = '_' || c = '.' || c = '~' || c = '/'

/-- Modelled behaviour of appc types.NewACName (external library): a valid
name is returned unchanged, an invalid one is an error. -/
def NewACName (s : GoStr) : Except GoStr GoStr :=
  if s ≠ [] ∧ s.all isValidACNameChar then .ok s else .error (gs "invalid ACName")

/-- Modelled behaviour of appc types.NewHash (external library): a hash
string "sha256-<nonempty>" is accepted and represented by itself, anything
else is an error. -/
def NewHash (s : GoStr) : Except GoStr GoStr :=
  match goSplitN2 '-' s with
  | [typ, val] =>
    if typ = gs "sha256" ∧ val ≠ [] then .ok s else .error (gs "invalid hash")
  | _ => .error (gs "invalid hash")

structure Label where
  Name : GoStr
  Value : GoStr
  deriving DecidableEq, Repr

structure App where
  Exec : List GoStr
  User : GoStr
  Group : GoStr
  deriving DecidableEq, Repr

structure Dependency where
  App : GoStr
  ImageID : GoStr
  deriving DecidableEq, Repr

structure ImageManifest where
  ACVersion : GoStr
  ACKind : GoStr
  Name : GoStr
  Labels : List Label
  App : Option App
  Dependencies : List Dependency
  deriving DecidableEq, Repr

/-- The labels built by GenerateManifest (docker2aci.go:261-270): the layer's
Docker ID and the parsed tag. -/
def manifestLabels (layerData : DockerImageData) (dockerURL : DockerURL) :
    List Label :=
  [ { Name := gs "layer", Value := layerData.ID },
    { Name := gs "version", Value := dockerURL.Tag } ]

/-- The app built by GenerateManifest (docker2aci.go:272-279): present exactly
when the Docker config is present with a non-empty Cmd; Entrypoint is never
read. -/
def manifestApp (cfg : Option RunConfig) : Option App :=
  match cfg with
  | some dockerConfig =>
    if dockerConfig.Cmd.length > 0 then
      some { Exec := dockerConfig.Cmd, User := gs "0", Group := gs "0" }
    else none
  | none => none

/-- GenerateManifest (docker2aci.go:245-293): name from indexURL "/" imageName,
labels layer/version, app only from a non-empty Docker Cmd, dependency only
from a non-empty parent image ID. -/
def GenerateManifest (layerData : DockerImageData) (dockerURL : DockerURL)
    (parentImageID : GoStr) : Except GoStr ImageManifest :=
  match NewACName (dockerURL.IndexURL ++ gs "/" ++ dockerURL.ImageName) with
  | .error e => .error e
  | .ok name =>
    if parentImageID ≠ [] then
      match NewHash parentImageID with
      | .error e => .error e
      | .ok hash =>
        .ok { ACVersion := schemaVersion, ACKind := gs "ImageManifest",
              Name := name, Labels := manifestLabels layerData dockerURL,
              App := manifestApp layerData.Config,
              Dependencies := [ { App := name, ImageID := hash } ] }
    else
      .ok { ACVersion := schemaVersion, ACKind := gs "ImageManifest",
            Name := name, Labels := manifestLabels layerData dockerURL,
            App := manifestApp layerData.Config,
            Dependencies := [] }

/-- Concrete layer metadata used by the manifest witness. -/
def c2LayerData : DockerImageData :=
  { ID := gs "abc123", Parent := [],
    Config := some { Cmd := [gs "/bin/sh"], Entrypoint := [] }, Checksum := [] }

/-- Concrete parsed reference used by the manifest witness. -/
def c2URL : DockerURL :=
  { IndexURL := gs "quay.io", ImageName := gs "foo/bar", Tag := gs "v1" }

/-- Concrete parent converted identifier used by the manifest witness. -/
def c2Parent : GoStr := gs "sha256-deadbeef"

/-- Concrete replacement entrypoint used by the manifest witness. -/
def c2Ep : List GoStr := [gs "/entry"]

/-- The manifest GenerateManifest produces on the witness inputs. -/
def c2Manifest : ImageManifest :=
  { ACVersion := schemaVersion, ACKind := gs "ImageManifest",
    Name := gs "quay.io/foo/bar",
    Labels := [ { Name := gs "layer", Value := gs "abc123" },
                { Name := gs "version", Value := gs "v1" } ],
    App := some { Exec := [gs "/bin/sh"], User := gs "0", Group := gs "0" },
    Dependencies := [ { App := gs "quay.io/foo/bar",
                        ImageID := gs "sha256-deadbeef" } ] }

/-! ## Archive builder embedding

buildWalker (docker2aci.go:329-392) is driven by filepath.Walk; the traversal
is embedded as the ordered list of (relative path, filesystem node) pairs the
walk visits, and the archive as the ordered list of tar entries handed to
AddFile.  tarheader.Populate's hardlink handling (external appc/spec library,
per spec §4.3) keys on the OS inode number: the first path seen for an inode
is recorded, and a later regular file with a recorded inode becomes a
zero-size link entry to that first path with its content reader dropped. -/

/-- A filesystem node as the walker classifies it via info.Mode() & ModeType. -/
inductive FsNode
  | dir
  | charDevice
  | device
  | symlink (target : GoStr)
  | regular (ino : Nat) (content : List Nat)
  deriving DecidableEq, Repr

instance : Inhabited FsNode := ⟨FsNode.dir⟩

/-- Tar entry type flags the walker can emit. -/
inductive TarTypeflag
  | reg | link | symlink | dir | chr | blk
  deriving DecidableEq, Repr

/-- One archive entry: header fields plus the optional content reader. -/
structure TarEntry where
  name : GoStr
  typeflag : TarTypeflag
  linkname : GoStr
  size : Nat
  content : Option (List Nat)
  deriving DecidableEq, Repr

/-- aci.ManifestFile, skipped by the walker. -/
def manifestFile : GoStr := gs "manifest"

/-- Paths the walker ignores: the root itself and a pre-existing manifest. -/
def isSkipped (p : GoStr) : Bool := p == gs "." || p == manifestFile

/-- One walker invocation: new inode cache and the entries written (none for a
skipped path, one otherwise). -/
def walkStep (inos : List (Nat × GoStr)) (p : GoStr) (n : FsNode) :
    List (Nat × GoStr) × List TarEntry :=
  if isSkipped p then (inos, [])
  else
    match n with
    | .dir => (inos, [{ name := p, typeflag := .dir, linkname := [],
                        size := 0, content := none }])
    | .charDevice => (inos, [{ name := p, typeflag := .chr, linkname := [],
                               size := 0, content := none }])
    | .device => (inos, [{ name := p, typeflag := .blk, linkname := [],
                           size := 0, content := none }])
    | .symlink target =>
      (inos, [{ name := p, typeflag := .symlink, linkname := target,
                size := 0, content := none }])
    | .regular ino content =>
      match inos.lookup ino with
      | some first =>
        (inos, [{ name := p, typeflag := .link, linkname := first,
                  size := 0, content := none }])
      | none =>
        ((ino, p) :: inos,
         [{ name := p, typeflag := .reg, linkname := [],
            size := content.length, content := some content }])

/-- The archive produced by walking the given traversal with the given inode
cache. -/
def buildWalk : List (GoStr × FsNode) → List (Nat × GoStr) → List TarEntry
  | [], _ => []
  | (p, n) :: rest, inos =>
    (walkStep inos p n).2 ++ buildWalk rest (walkStep inos p n).1

/-- The inode cache after walking the given traversal. -/
def walkState : List (GoStr × FsNode) → List (Nat × GoStr) → List (Nat × GoStr)
  | [], inos => inos
  | (p, n) :: rest, inos => walkState rest (walkStep inos p n).1

/-- The inode numbers of all regular files in a traversal. -/
def inosOf : List (GoStr × FsNode) → List Nat
  | [] => []
  | (_, FsNode.regular ino _) :: rest => ino :: inosOf rest
  | _ :: rest => inosOf rest

/-! ## Layer import embedding

ImportLayer (docker2aci.go:443-515) is embedded with the filesystem as the
list of existing paths and an oracle supplying the outcome of each effectful
stage: the temp-dir name, the two registry responses, the json.Unmarshal
result of the fetched metadata, and the success of each filesystem/store step.
Go's `defer os.RemoveAll(tmpDir)` runs on every return after the successful
TempDir call, so the embedding applies `removeAll` to the body's final
filesystem on both the ok and the error path.  The generated manifest is
returned alongside the store key as a specification-level observation (the Go
function writes it into the staging tree). -/

/-- os.RemoveAll of a directory: every path under it (itself included)
disappears. -/
def removeAll (dir : GoStr) (fs : List GoStr) : List GoStr :=
  fs.filter (fun p => !(dir.isPrefixOf p))

/-- Outcomes of ImportLayer's effectful stages. -/
structure ImportOracle where
  tmpName : GoStr
  tmpOk : Bool
  mkdirOk : Bool
  jsonRes : Response
  layerData : Option DockerImageData
  layerRes : Response
  untarOk : Bool
  untarFiles : List GoStr
  createOk : Bool
  buildOk : Bool
  openOk : Bool
  storeOk : Bool
  storeId : GoStr

/-- The body of ImportLayer after the TempDir call (docker2aci.go:450-514),
threading the filesystem through each stage; the `Endpoints.head?` miss models
the out-of-range panic Go would raise on an empty endpoint list (ruled out by
C10). -/
def importLayerBody (o : ImportOracle) (layerID : GoStr) (repoData : RepoData)
    (dockerURL : DockerURL) (parentImageID : GoStr) (tmpDir : GoStr)
    (fs : List GoStr) : Except GoStr (GoStr × ImageManifest) × List GoStr :=
  let layerDest := tmpDir ++ gs "/layer"
  let layerRootfs := layerDest ++ gs "/rootfs"
  if !o.mkdirOk then (.error (gs "Error creating dir: " ++ layerRootfs), fs)
  else
    let fs₁ := layerRootfs :: layerDest :: fs
    match repoData.Endpoints.head? with
    | none => (.error (gs "index out of range"), fs₁)
    | some endpoint =>
      match GetRemoteImageJSON layerID endpoint o.jsonRes with
      | .error e => (.error (gs "Error getting image json: " ++ e), fs₁)
      | .ok _ =>
        match o.layerData with
        | none => (.error (gs "Error unmarshaling layer data"), fs₁)
        | some layerData =>
          match GetRemoteLayer layerID endpoint o.layerRes with
          | .error e => (.error (gs "Error getting the remote layer: " ++ e), fs₁)
          | .ok _ =>
            if !o.untarOk then (.error (gs "Error untaring image"), fs₁)
            else
              let fs₂ := o.untarFiles.map
                (fun f => layerRootfs ++ gs "/" ++ f) ++ fs₁
              match GenerateManifest layerData dockerURL parentImageID with
              | .error e =>
                (.error (gs "Error generating the manifest: " ++ e), fs₂)
              | .ok manifest =>
                if !o.createOk then
                  (.error (gs "Error creating manifest file"), fs₂)
                else
                  let fs₃ := (layerDest ++ gs "/manifest") :: fs₂
                  if !o.buildOk then (.error (gs "Error building ACI"), fs₃)
                  else
                    let fs₄ := (tmpDir ++ gs "/" ++ layerID ++ gs ".aci") :: fs₃
                    if !o.openOk then
                      (.error (gs "Error opening target aci file"), fs₄)
                    else if !o.storeOk then
                      (.error (gs "Error writing ACI"), fs₄)
                    else (.ok (o.storeId, manifest), fs₄)

/-- ImportLayer (docker2aci.go:443-515): allocate the staging directory, run
the body, and remove the staging directory on every exit path (the deferred
RemoveAll). -/
def ImportLayer (o : ImportOracle) (layerID : GoStr) (repoData : RepoData)
    (dockerURL : DockerURL) (parentImageID : GoStr) (fs : List GoStr) :
    Except GoStr (GoStr × ImageManifest) × List GoStr :=
  if !o.tmpOk then (.error (gs "Error creating dir: "), fs)
  else
    match importLayerBody o layerID repoData dockerURL parentImageID o.tmpName
        (o.tmpName :: fs) with
    | (res, fs₂) => (res, removeAll o.tmpName fs₂)

/-- A fully successful import oracle for the C7 witness. -/
def c7Oracle : ImportOracle :=
  { tmpName := gs "/tmp/docker2aci-123", tmpOk := true, mkdirOk := true,
    jsonRes := { statusCode := 200, headers := [], body := gs "{}" },
    layerData := some c2LayerData,
    layerRes := { statusCode := 200, headers := [], body := gs "blob" },
    untarOk := true, untarFiles := [gs "bin/sh"],
    createOk := true, buildOk := true, openOk := true, storeOk := true,
    storeId := gs "sha256-aaa" }

/-! ## Conversion pipeline embedding

runDocker2ACI's loop (docker2aci.go:545-562) walks the ancestry from its last
element to its first (base image first), feeding each ImportLayer result into
the next call's parentImageID.  Each completed import is recorded as an
ImportStep, in processing order. -/

/-- One completed layer import, in processing order: the Docker layer ID, the
parent converted identifier passed in, the converted identifier returned, and
the manifest generated inside the import. -/
structure ImportStep where
  layerID : GoStr
  parent : GoStr
  converted : GoStr
  manifest : ImageManifest
  deriving DecidableEq, Repr

/-- A step's manifest has no dependency for an empty parent and exactly the
parent-referencing dependency otherwise. -/
def stepManifestOk (s : ImportStep) : Bool :=
  if s.parent = [] then decide (s.manifest.Dependencies = [])
  else decide (s.manifest.Dependencies =
    [{ App := s.manifest.Name, ImageID := s.parent }])

/-- The steps form a chain: the first parent is the given one, and each
subsequent parent is the previous step's converted identifier; every step's
manifest dependency matches its parent. -/
def chainedOk : GoStr → List ImportStep → Bool
  | _, [] => true
  | parent, s :: rest =>
    decide (s.parent = parent) && stepManifestOk s && chainedOk s.converted rest

/-- The import loop over an already-reversed ancestry, threading the parent
converted identifier and the filesystem. -/
def runImports (lo : GoStr → ImportOracle) (repoData : RepoData)
    (dockerURL : DockerURL) :
    List GoStr → GoStr → List GoStr →
    Except GoStr (List ImportStep) × List GoStr
  | [], _, fs => (.ok [], fs)
  | layerID :: rest, parentImageID, fs =>
    match ImportLayer (lo layerID) layerID repoData dockerURL parentImageID fs with
    | (.error e, fs') => (.error e, fs')
    | (.ok (conv, m), fs') =>
      match runImports lo repoData dockerURL rest conv fs' with
      | (.error e, fs'') => (.error e, fs'')
      | (.ok steps, fs'') =>
        (.ok ({ layerID := layerID, parent := parentImageID,
                converted := conv, manifest := m } :: steps), fs'')

/-- The pipeline's import phase (docker2aci.go:545-562): iterate the fetched
ancestry in reverse (base first) starting from an empty parent identifier. -/
def pipelineSteps (lo : GoStr → ImportOracle) (repoData : RepoData)
    (dockerURL : DockerURL) (ancestry : List GoStr) (fs : List GoStr) :
    Except GoStr (List ImportStep) × List GoStr :=
  runImports lo repoData dockerURL ancestry.reverse [] fs

/-- Per-layer oracles for the C1 witness: the base layer's import returns
sha256-aaa, the top layer's returns sha256-bbb. -/
def c1Lo : GoStr → ImportOracle := fun lid =>
  if lid = gs "l1" then
    { c7Oracle with tmpName := gs "/tmp/docker2aci-456",
                    storeId := gs "sha256-bbb" }
  else c7Oracle

/-- The manifest of the base layer in the C1 witness: no dependency. -/
def c1ManifestBase : ImageManifest := { c2Manifest with Dependencies := [] }

/-- The manifest of the top layer in the C1 witness: depends on the base
layer's converted identifier. -/
def c1ManifestTop : ImageManifest :=
  { c2Manifest with
    Dependencies := [ { App := gs "quay.io/foo/bar",
                        ImageID := gs "sha256-aaa" } ] }

/-- The steps the pipeline records on the C1 witness inputs. -/
def c1Steps : List ImportStep :=
  [ { layerID := gs "l2", parent := [], converted := gs "sha256-aaa",
      manifest := c1ManifestBase },
    { layerID := gs "l1", parent := gs "sha256-aaa",
      converted := gs "sha256-bbb", manifest := c1ManifestTop } ]

/-! ## Theorems -/

theorem goSplit_ne_nil (sep : Char) (s : GoStr) : goSplit sep s ≠ [] := by
  induction s with
  | nil => simp [goSplit]
  | cons c cs ih =>
    unfold goSplit
    cases hr : goSplit sep cs with
    | nil => exact absurd hr ih
    | cons p ps => by_cases h : c = sep <;> simp [h]

/-- C5: reference parsing is deterministic (it is a pure function) and takes
the three specified values on the three specified inputs. -/
theorem C5_parseArgument_values :
    parseArgument (gs "quay.io/foo/bar:v1") =
      { IndexURL := gs "quay.io", ImageName := gs "foo/bar", Tag := gs "v1" } ∧
    parseArgument (gs "foo/bar") =
      { IndexURL := defaultIndex, ImageName := gs "foo/bar", Tag := defaultTag } ∧
    parseArgument (gs "busybox") =
      { IndexURL := defaultIndex, ImageName := gs "busybox", Tag := defaultTag } := by
  refine ⟨?_, ?_, ?_⟩ <;> decide

theorem foldl_append_eq_flatMap {α β : Type} (f : α → List β) (l : List α)
    (acc : List β) :
    l.foldl (fun a x => a ++ f x) acc = acc ++ l.flatMap f := by
  induction l generalizing acc with
  | nil => simp
  | cons x xs ih => simp [ih, List.append_assoc]

theorem makeEndpointsList_eq_spec (headers : List GoStr) :
    makeEndpointsList headers = endpointsSpecList headers := by
  simpa [makeEndpointsList, endpointsSpecList] using
    foldl_append_eq_flatMap
      (fun h => (goSplit ',' h).map
        (fun e => gs "https://" ++ goTrimSpace e ++ gs "/v1/"))
      headers []

/-- C6: on a successful GetRepoData response, a present endpoints header (one
Go's Header.Get sees, i.e. with a non-empty first value) yields exactly the
spec's per-element HTTPS-wrapped list in order, and an absent one yields the
single original index host. -/
theorem C6_getRepoData_endpoints (indexURL remote : GoStr) (res : Response)
    (h200 : res.statusCode = 200) :
    ∃ rd, GetRepoData indexURL remote res = .ok rd ∧
      (headerGet res.headers (gs "X-Docker-Endpoints") ≠ [] →
        rd.Endpoints =
          endpointsSpecList (headerValues res.headers (gs "X-Docker-Endpoints"))) ∧
      (headerGet res.headers (gs "X-Docker-Endpoints") = [] →
        rd.Endpoints = [indexURL]) := by
  refine ⟨{ Tokens :=
              if headerGet res.headers (gs "X-Docker-Token") = [] then []
              else headerValues res.headers (gs "X-Docker-Token"),
            Endpoints :=
              if headerGet res.headers (gs "X-Docker-Endpoints") = [] then [indexURL]
              else makeEndpointsList
                (headerValues res.headers (gs "X-Docker-Endpoints")) },
          ?_, ?_, ?_⟩
  · simp [GetRepoData, h200]
  · intro hne
    simp [hne, makeEndpointsList_eq_spec]
  · intro heq
    simp [heq]

/-- Witness for C6 at a concrete response carrying a two-element endpoints
header value. -/
theorem C6_getRepoData_endpoints_witness :
    ∃ rd,
      GetRepoData (gs "index.docker.io") (gs "busybox")
          { statusCode := 200,
            headers := [(gs "X-Docker-Endpoints", [gs "r1.io, r2.io"])],
            body := [] } = .ok rd ∧
      (headerGet [(gs "X-Docker-Endpoints", [gs "r1.io, r2.io"])]
          (gs "X-Docker-Endpoints") ≠ [] →
        rd.Endpoints =
          endpointsSpecList (headerValues
            [(gs "X-Docker-Endpoints", [gs "r1.io, r2.io"])]
            (gs "X-Docker-Endpoints"))) ∧
      (headerGet [(gs "X-Docker-Endpoints", [gs "r1.io, r2.io"])]
          (gs "X-Docker-Endpoints") = [] →
        rd.Endpoints = [gs "index.docker.io"]) :=
  C6_getRepoData_endpoints (gs "index.docker.io") (gs "busybox")
    { statusCode := 200,
      headers := [(gs "X-Docker-Endpoints", [gs "r1.io, r2.io"])],
      body := [] } rfl

/-- C10: a successful GetRepoData always returns a non-empty endpoint list,
so every later `repoData.Endpoints[0]` access in the pipeline is in bounds. -/
theorem C10_endpoints_nonempty (indexURL remote : GoStr) (res : Response)
    (rd : RepoData) (h : GetRepoData indexURL remote res = .ok rd) :
    ∃ e es, rd.Endpoints = e :: es := by
  unfold GetRepoData at h
  by_cases h200 : res.statusCode = 200
  · simp [h200] at h
    by_cases hep : headerGet res.headers (gs "X-Docker-Endpoints") = []
    · simp [hep] at h
      exact ⟨indexURL, [], by rw [← h]⟩
    · simp [hep] at h
      rw [← h]
      show ∃ e es,
        makeEndpointsList (headerValues res.headers (gs "X-Docker-Endpoints")) = e :: es
      rw [makeEndpointsList_eq_spec]
      apply List.exists_cons_of_ne_nil
      unfold headerGet at hep
      match hlk : (res.headers).lookup (gs "X-Docker-Endpoints") with
      | none => rw [hlk] at hep; simp at hep
      | some [] => rw [hlk] at hep; simp at hep
      | some (v :: vs) =>
        have hv : headerValues res.headers (gs "X-Docker-Endpoints") = v :: vs := by
          simp [headerValues, hlk]
        rw [hv]
        rcases hs : goSplit ',' v with _ | ⟨p, ps⟩
        · exact absurd hs (goSplit_ne_nil ',' v)
        · simp [endpointsSpecList, hs]
  · simp [h200] at h

/-- Witness for C10 at a concrete response with no endpoints header. -/
theorem C10_endpoints_nonempty_witness :
    ∃ e es, (RepoData.mk [] [gs "a.io"]).Endpoints = e :: es :=
  C10_endpoints_nonempty (gs "a.io") (gs "img")
    { statusCode := 200, headers := [], body := [] }
    (RepoData.mk [] [gs "a.io"]) rfl

theorem appendMidInfix (a x b c : GoStr) : x <:+: a ++ x ++ b ++ c :=
  ⟨a, b ++ c, by simp⟩

theorem appendTailInfix (a b c x : GoStr) : x <:+: a ++ b ++ c ++ x :=
  ⟨a ++ b ++ c, [], by simp⟩

/-- C4: any response with a non-success HTTP status makes every registry
operation return an error whose message contains the decimal status code and
the requested URL; since errors propagate without retry, the conversion
aborts. -/
theorem C4_non_success_status_errors
    (indexURL remote imgID registry appName tag : GoStr) (res : Response)
    (h : ¬(200 ≤ res.statusCode ∧ res.statusCode < 300)) :
    (∃ e, GetRepoData indexURL remote res = .error e ∧
      goNatStr res.statusCode <:+: e ∧ repositoriesURL indexURL remote <:+: e) ∧
    (∃ e, GetRemoteImageJSON imgID registry res = .error e ∧
      goNatStr res.statusCode <:+: e ∧ imageJSONURL imgID registry <:+: e) ∧
    (∃ e, GetRemoteLayer imgID registry res = .error e ∧
      goNatStr res.statusCode <:+: e ∧ layerURL imgID registry <:+: e) ∧
    (∃ e, GetImageIDFromTag registry appName tag res = .error e ∧
      goNatStr res.statusCode <:+: e ∧ tagsURL registry appName tag <:+: e) ∧
    (∃ e, GetAncestry imgID registry res = .error e ∧
      goNatStr res.statusCode <:+: e ∧ ancestryURL imgID registry <:+: e) := by
  have hne : res.statusCode ≠ 200 := fun he => h (by omega)
  refine ⟨⟨gs "HTTP code: " ++ goNatStr res.statusCode ++ gs ", URL: " ++
            repositoriesURL indexURL remote,
           by simp [GetRepoData, hne], appendMidInfix _ _ _ _, appendTailInfix _ _ _ _⟩,
          ⟨gs "HTTP code: " ++ goNatStr res.statusCode ++ gs ", URL: " ++
            imageJSONURL imgID registry,
           by simp [GetRemoteImageJSON, hne], appendMidInfix _ _ _ _, appendTailInfix _ _ _ _⟩,
          ⟨gs "HTTP code: " ++ goNatStr res.statusCode ++ gs ". URL: " ++
            layerURL imgID registry,
           by simp [GetRemoteLayer, hne], appendMidInfix _ _ _ _, appendTailInfix _ _ _ _⟩,
          ⟨gs "HTTP code: " ++ goNatStr res.statusCode ++ gs ". URL: " ++
            tagsURL registry appName tag,
           by simp [GetImageIDFromTag, hne], appendMidInfix _ _ _ _, appendTailInfix _ _ _ _⟩,
          ⟨gs "HTTP code: " ++ goNatStr res.statusCode ++ gs ". URL: " ++
            ancestryURL imgID registry,
           by simp [GetAncestry, hne], appendMidInfix _ _ _ _, appendTailInfix _ _ _ _⟩⟩

/-- Witness for C4 at a concrete 404 response. -/
theorem C4_non_success_status_errors_witness :
    (∃ e, GetRepoData (gs "i.io") (gs "img")
        { statusCode := 404, headers := [], body := [] } = .error e ∧
      goNatStr 404 <:+: e ∧ repositoriesURL (gs "i.io") (gs "img") <:+: e) ∧
    (∃ e, GetRemoteImageJSON (gs "id1") (gs "https://r.io/v1/")
        { statusCode := 404, headers := [], body := [] } = .error e ∧
      goNatStr 404 <:+: e ∧ imageJSONURL (gs "id1") (gs "https://r.io/v1/") <:+: e) ∧
    (∃ e, GetRemoteLayer (gs "id1") (gs "https://r.io/v1/")
        { statusCode := 404, headers := [], body := [] } = .error e ∧
      goNatStr 404 <:+: e ∧ layerURL (gs "id1") (gs "https://r.io/v1/") <:+: e) ∧
    (∃ e, GetImageIDFromTag (gs "https://r.io/v1/") (gs "app") (gs "t1")
        { statusCode := 404, headers := [], body := [] } = .error e ∧
      goNatStr 404 <:+: e ∧ tagsURL (gs "https://r.io/v1/") (gs "app") (gs "t1") <:+: e) ∧
    (∃ e, GetAncestry (gs "id1") (gs "https://r.io/v1/")
        { statusCode := 404, headers := [], body := [] } = .error e ∧
      goNatStr 404 <:+: e ∧ ancestryURL (gs "id1") (gs "https://r.io/v1/") <:+: e) :=
  C4_non_success_status_errors (gs "i.io") (gs "img") (gs "id1")
    (gs "https://r.io/v1/") (gs "app") (gs "t1")
    { statusCode := 404, headers := [], body := [] } (by decide)

theorem token_value_ne_nil (x : GoStr) : gs "Token " ++ x ≠ [] := by
  have h7 : gs "Token " ≠ [] := by decide
  exact fun h => h7 (List.append_eq_nil.mp h).1

/-- C8: setAuthToken writes "Token " followed by the comma-joined token list
only when the Authorization header is unset; an already-set header is left
unchanged, and applying the helper twice equals applying it once. -/
theorem C8_setAuthToken_idempotent (req : Request) (token : List GoStr) :
    (headerGet req.headers (gs "Authorization") ≠ [] →
      setAuthToken req token = req) ∧
    setAuthToken (setAuthToken req token) token = setAuthToken req token := by
  constructor
  · intro hne
    simp [setAuthToken, hne]
  · by_cases hga : headerGet req.headers (gs "Authorization") = []
    · have h1 : setAuthToken req token =
        { req with
          headers := headerSet req.headers (gs "Authorization")
            (gs "Token " ++ List.intercalate (gs ",") token) } := by
        simp [setAuthToken, hga]
      have h2 : headerGet
          (headerSet req.headers (gs "Authorization")
            (gs "Token " ++ List.intercalate (gs ",") token))
          (gs "Authorization") =
          gs "Token " ++ List.intercalate (gs ",") token := by
        simp [headerGet, headerSet, List.lookup]
      have h7 : gs "Token " ≠ [] := by decide
      rw [h1]
      simp [setAuthToken, h2, h7]
    · have h1 : setAuthToken req token = req := by simp [setAuthToken, hga]
      rw [h1]
      exact h1

/-- Witness for C8: an already-set Authorization header is untouched, and a
double application on a bare request equals a single one. -/
theorem C8_setAuthToken_idempotent_witness :
    setAuthToken { headers := [(gs "Authorization", [gs "Basic abc"])] } [gs "tk"] =
      { headers := [(gs "Authorization", [gs "Basic abc"])] } ∧
    setAuthToken (setAuthToken { headers := [] } [gs "tk"]) [gs "tk"] =
      setAuthToken { headers := [] } [gs "tk"] :=
  ⟨(C8_setAuthToken_idempotent
      { headers := [(gs "Authorization", [gs "Basic abc"])] } [gs "tk"]).1
      (by decide),
   (C8_setAuthToken_idempotent { headers := [] } [gs "tk"]).2⟩

/-- C9: a successful image-JSON response with no size header yields the body
with the sentinel size -1 and no error. -/
theorem C9_size_header_absent (imgID registry : GoStr) (res : Response)
    (h200 : res.statusCode = 200)
    (habs : headerGet res.headers (gs "X-Docker-Size") = []) :
    GetRemoteImageJSON imgID registry res = .ok (res.body, -1) := by
  simp [GetRemoteImageJSON, h200, habs]

/-- Witness for C9 at a concrete header-free 200 response. -/
theorem C9_size_header_absent_witness :
    GetRemoteImageJSON (gs "id1") (gs "https://r.io/v1/")
        { statusCode := 200, headers := [], body := gs "x" } =
      .ok (gs "x", -1) :=
  C9_size_header_absent (gs "id1") (gs "https://r.io/v1/")
    { statusCode := 200, headers := [], body := gs "x" } rfl rfl

theorem NewACName_ok {s t : GoStr} (h : NewACName s = .ok t) : t = s := by
  unfold NewACName at h
  split at h
  · simp at h; exact h.symm
  · simp at h

theorem NewHash_ok {s t : GoStr} (h : NewHash s = .ok t) : t = s := by
  unfold NewHash at h
  rcases hm : goSplitN2 '-' s with _ | ⟨typ, _ | ⟨val, _ | _⟩⟩ <;> rw [hm] at h <;>
    simp at h
  split at h
  · simp at h; exact h.symm
  · simp at h

theorem GenerateManifest_entrypoint_irrelevant (layerData : DockerImageData)
    (dockerURL : DockerURL) (parentImageID : GoStr) (ep : List GoStr) :
    GenerateManifest
      { layerData with
        Config := layerData.Config.map (fun c => { c with Entrypoint := ep }) }
      dockerURL parentImageID =
    GenerateManifest layerData dockerURL parentImageID := by
  unfold GenerateManifest manifestApp manifestLabels
  cases layerData.Config <;> rfl

theorem manifestApp_isSome_iff (cfg : Option RunConfig) :
    (∃ a, manifestApp cfg = some a) ↔ ∃ c, cfg = some c ∧ c.Cmd ≠ [] := by
  cases cfg with
  | none => simp [manifestApp]
  | some c => by_cases hc : c.Cmd = [] <;> simp [manifestApp, List.length_pos, hc]

theorem manifestApp_of_cmd (cfg : Option RunConfig) (c : RunConfig)
    (hc : cfg = some c) (hne : c.Cmd ≠ []) :
    manifestApp cfg = some { Exec := c.Cmd, User := gs "0", Group := gs "0" } := by
  subst hc
  simp [manifestApp, List.length_pos, hne]

/-- C2: every manifest GenerateManifest returns has name indexHost/imageName,
exactly the layer and version labels, an app exactly when the Docker config
has a non-empty command list (with the Docker entrypoint never consulted, so
replacing it changes nothing), and a dependency exactly when the parent
converted identifier is non-empty, in which case the dependency carries that
identifier. -/
theorem C2_generateManifest_shape (layerData : DockerImageData)
    (dockerURL : DockerURL) (parentImageID : GoStr) (ep : List GoStr)
    (m : ImageManifest)
    (h : GenerateManifest layerData dockerURL parentImageID = .ok m) :
    m.Name = dockerURL.IndexURL ++ gs "/" ++ dockerURL.ImageName ∧
    m.Labels = [ { Name := gs "layer", Value := layerData.ID },
                 { Name := gs "version", Value := dockerURL.Tag } ] ∧
    ((∃ a, m.App = some a) ↔ ∃ c, layerData.Config = some c ∧ c.Cmd ≠ []) ∧
    (∀ c, layerData.Config = some c → c.Cmd ≠ [] →
      m.App = some { Exec := c.Cmd, User := gs "0", Group := gs "0" }) ∧
    (m.Dependencies ≠ [] ↔ parentImageID ≠ []) ∧
    (parentImageID ≠ [] →
      m.Dependencies = [ { App := m.Name, ImageID := parentImageID } ]) ∧
    GenerateManifest
      { layerData with
        Config := layerData.Config.map (fun c => { c with Entrypoint := ep }) }
      dockerURL parentImageID = .ok m := by
  have h0 := h
  unfold GenerateManifest at h
  rcases hn : NewACName (dockerURL.IndexURL ++ gs "/" ++ dockerURL.ImageName)
    with e | name <;> rw [hn] at h
  · simp at h
  · have hname := NewACName_ok hn
    by_cases hp : parentImageID = []
    · simp [hp] at h
      refine ⟨?_, ?_, ?_, ?_, ?_, ?_, ?_⟩
      · rw [← h]; exact hname
      · rw [← h]; rfl
      · rw [← h]; exact manifestApp_isSome_iff layerData.Config
      · intro c hc hcmd; rw [← h]; exact manifestApp_of_cmd _ c hc hcmd
      · rw [← h]; simp [hp]
      · intro hcontra; exact absurd hp hcontra
      · rw [GenerateManifest_entrypoint_irrelevant]; exact h0
    · simp [hp] at h
      rcases hh : NewHash parentImageID with e | hash <;> rw [hh] at h
      · simp at h
      · have hhash := NewHash_ok hh
        simp at h
        refine ⟨?_, ?_, ?_, ?_, ?_, ?_, ?_⟩
        · rw [← h]; exact hname
        · rw [← h]; rfl
        · rw [← h]; exact manifestApp_isSome_iff layerData.Config
        · intro c hc hcmd; rw [← h]; exact manifestApp_of_cmd _ c hc hcmd
        · rw [← h]; simp [hp]
        · intro _; rw [← h, hhash]
        · rw [GenerateManifest_entrypoint_irrelevant]; exact h0

/-- Witness for C2 at the concrete inputs above. -/
theorem C2_generateManifest_shape_witness :
    c2Manifest.Name = c2URL.IndexURL ++ gs "/" ++ c2URL.ImageName ∧
    c2Manifest.Labels = [ { Name := gs "layer", Value := c2LayerData.ID },
                          { Name := gs "version", Value := c2URL.Tag } ] ∧
    ((∃ a, c2Manifest.App = some a) ↔
      ∃ c, c2LayerData.Config = some c ∧ c.Cmd ≠ []) ∧
    (∀ c, c2LayerData.Config = some c → c.Cmd ≠ [] →
      c2Manifest.App = some { Exec := c.Cmd, User := gs "0", Group := gs "0" }) ∧
    (c2Manifest.Dependencies ≠ [] ↔ c2Parent ≠ []) ∧
    (c2Parent ≠ [] →
      c2Manifest.Dependencies =
        [ { App := c2Manifest.Name, ImageID := c2Parent } ]) ∧
    GenerateManifest
      { c2LayerData with
        Config := c2LayerData.Config.map (fun c => { c with Entrypoint := c2Ep }) }
      c2URL c2Parent = .ok c2Manifest :=
  C2_generateManifest_shape c2LayerData c2URL c2Parent c2Ep c2Manifest rfl

theorem buildWalk_append (xs ys : List (GoStr × FsNode))
    (st : List (Nat × GoStr)) :
    buildWalk (xs ++ ys) st = buildWalk xs st ++ buildWalk ys (walkState xs st) := by
  induction xs generalizing st with
  | nil => simp [buildWalk, walkState]
  | cons x rest ih =>
    rcases x with ⟨p, n⟩
    simp [buildWalk, walkState, ih]

theorem walkState_append (xs ys : List (GoStr × FsNode))
    (st : List (Nat × GoStr)) :
    walkState (xs ++ ys) st = walkState ys (walkState xs st) := by
  induction xs generalizing st with
  | nil => simp [walkState]
  | cons x rest ih =>
    rcases x with ⟨p, n⟩
    simp [walkState, ih]

theorem walkState_lookup (xs : List (GoStr × FsNode)) (st : List (Nat × GoStr))
    (ino : Nat) (h : ino ∉ inosOf xs) :
    (walkState xs st).lookup ino = st.lookup ino := by
  induction xs generalizing st with
  | nil => rfl
  | cons x rest ih =>
    rcases x with ⟨p, n⟩
    by_cases hsk : isSkipped p
    · have hrest : ino ∉ inosOf rest := by
        intro hm
        exact h (by cases n <;> simp [inosOf, hm])
      simp [walkState, walkStep, hsk, ih _ hrest]
    · cases n with
      | regular ino' c =>
        have hne : ino ≠ ino' := by
          intro he
          exact h (by simp [inosOf, he])
        have hrest : ino ∉ inosOf rest := by
          intro hm
          exact h (by simp [inosOf, hm])
        cases hlk : st.lookup ino' with
        | some first => simp [walkState, walkStep, hsk, hlk, ih _ hrest]
        | none =>
          have : (walkStep st p (FsNode.regular ino' c)).1 = (ino', p) :: st := by
            simp [walkStep, hsk, hlk]
          rw [walkState, this, ih _ hrest]
          have hbf : (ino == ino') = false := by simp [hne]
          simp [List.lookup, hbf]
      | dir =>
        have hrest : ino ∉ inosOf rest := by
          intro hm; exact h (by simp [inosOf, hm])
        simp [walkState, walkStep, hsk, ih _ hrest]
      | charDevice =>
        have hrest : ino ∉ inosOf rest := by
          intro hm; exact h (by simp [inosOf, hm])
        simp [walkState, walkStep, hsk, ih _ hrest]
      | device =>
        have hrest : ino ∉ inosOf rest := by
          intro hm; exact h (by simp [inosOf, hm])
        simp [walkState, walkStep, hsk, ih _ hrest]
      | symlink t =>
        have hrest : ino ∉ inosOf rest := by
          intro hm; exact h (by simp [inosOf, hm])
        simp [walkState, walkStep, hsk, ih _ hrest]

theorem walkStep_name (inos : List (Nat × GoStr)) (p : GoStr) (n : FsNode) :
    ∀ te ∈ (walkStep inos p n).2, te.name = p := by
  intro te hte
  by_cases hsk : isSkipped p
  · simp [walkStep, hsk] at hte
  · cases n with
    | regular ino c =>
      cases hlk : inos.lookup ino with
      | some first => simp [walkStep, hsk, hlk] at hte; simp [hte]
      | none => simp [walkStep, hsk, hlk] at hte; simp [hte]
    | dir => simp [walkStep, hsk] at hte; simp [hte]
    | charDevice => simp [walkStep, hsk] at hte; simp [hte]
    | device => simp [walkStep, hsk] at hte; simp [hte]
    | symlink t => simp [walkStep, hsk] at hte; simp [hte]

theorem buildWalk_name_mem (entries : List (GoStr × FsNode))
    (st : List (Nat × GoStr)) :
    ∀ te ∈ buildWalk entries st, te.name ∈ entries.map Prod.fst := by
  induction entries generalizing st with
  | nil => simp [buildWalk]
  | cons x rest ih =>
    rcases x with ⟨p, n⟩
    intro te hte
    simp only [buildWalk] at hte
    rcases List.mem_append.mp hte with hl | hr
    · have hp := walkStep_name st p n te hl
      simp [hp]
    · have hm := ih ((walkStep st p n).1) te hr
      simp [hm]

theorem walkStep_symlink_entry (inos : List (Nat × GoStr)) (p : GoStr)
    (n : FsNode) :
    ∀ te ∈ (walkStep inos p n).2, te.typeflag = TarTypeflag.symlink →
      te.content = none ∧ te.size = 0 := by
  intro te hte hflag
  by_cases hsk : isSkipped p
  · simp [walkStep, hsk] at hte
  · cases n with
    | regular ino c =>
      cases hlk : inos.lookup ino with
      | some first =>
        simp [walkStep, hsk, hlk] at hte
        rw [hte] at hflag
        simp at hflag
      | none =>
        simp [walkStep, hsk, hlk] at hte
        rw [hte] at hflag
        simp at hflag
    | dir =>
      simp [walkStep, hsk] at hte
      rw [hte] at hflag
      simp at hflag
    | charDevice =>
      simp [walkStep, hsk] at hte
      rw [hte] at hflag
      simp at hflag
    | device =>
      simp [walkStep, hsk] at hte
      rw [hte] at hflag
      simp at hflag
    | symlink t =>
      simp [walkStep, hsk] at hte
      simp [hte]

theorem buildWalk_symlink_no_content (entries : List (GoStr × FsNode))
    (st : List (Nat × GoStr)) (te : TarEntry) (hte : te ∈ buildWalk entries st)
    (hflag : te.typeflag = TarTypeflag.symlink) :
    te.content = none ∧ te.size = 0 := by
  induction entries generalizing st with
  | nil => simp [buildWalk] at hte
  | cons x rest ih =>
    rcases x with ⟨p, n⟩
    simp only [buildWalk] at hte
    rcases List.mem_append.mp hte with hl | hr
    · exact walkStep_symlink_entry st p n te hl hflag
    · exact ih _ hr

theorem filter_pair_nil (W : List TarEntry) (paths : List GoStr)
    (p₁ p₂ : GoStr) (hW : ∀ te ∈ W, te.name ∈ paths)
    (h1 : p₁ ∉ paths) (h2 : p₂ ∉ paths) :
    W.filter (fun te => te.name == p₁ || te.name == p₂) = [] := by
  induction W with
  | nil => rfl
  | cons te rest ih =>
    have hname := hW te (by simp)
    have hn1 : te.name ≠ p₁ := fun he => h1 (he ▸ hname)
    have hn2 : te.name ≠ p₂ := fun he => h2 (he ▸ hname)
    have hrest : ∀ x ∈ rest, x.name ∈ paths := fun x hx => hW x (by simp [hx])
    have hb1 : (te.name == p₁) = false := by simp [hn1]
    have hb2 : (te.name == p₂) = false := by simp [hn2]
    simp [List.filter, hb1, hb2, ih hrest]

/-- C3: walking a tree in which exactly two regular files share one inode
produces, among the entries at their two paths, exactly one content-bearing
entry at the first-seen path followed by one zero-size link entry referencing
that first path with its content omitted; a symbolic link always produces a
content-free entry recording its target exactly. -/
theorem C3_walker_hardlink_symlink
    (pre mid post : List (GoStr × FsNode)) (p₁ p₂ : GoStr) (ino : Nat)
    (c₁ c₂ : List Nat) (q t : GoStr) (symrest : List (GoStr × FsNode))
    (symst : List (Nat × GoStr)) (entries : List (GoStr × FsNode))
    (st : List (Nat × GoStr)) (te : TarEntry)
    (h₁ : isSkipped p₁ = false) (h₂ : isSkipped p₂ = false)
    (hpre : ino ∉ inosOf pre) (hmid : ino ∉ inosOf mid)
    (_hpost : ino ∉ inosOf post)
    (hq₁ : p₁ ∉ (pre ++ mid ++ post).map Prod.fst)
    (hq₂ : p₂ ∉ (pre ++ mid ++ post).map Prod.fst)
    (hsymq : isSkipped q = false)
    (hmem : te ∈ buildWalk entries st)
    (hflag : te.typeflag = TarTypeflag.symlink) :
    (buildWalk (pre ++ [(p₁, FsNode.regular ino c₁)] ++ mid ++
        [(p₂, FsNode.regular ino c₂)] ++ post) []).filter
        (fun e => e.name == p₁ || e.name == p₂) =
      [ { name := p₁, typeflag := TarTypeflag.reg, linkname := [],
          size := c₁.length, content := some c₁ },
        { name := p₂, typeflag := TarTypeflag.link, linkname := p₁,
          size := 0, content := none } ] ∧
    buildWalk ((q, FsNode.symlink t) :: symrest) symst =
      { name := q, typeflag := TarTypeflag.symlink, linkname := t,
        size := 0, content := none } :: buildWalk symrest symst ∧
    te.content = none ∧ te.size = 0 := by
  refine ⟨?_, ?_, buildWalk_symlink_no_content entries st te hmem hflag⟩
  · have hq1s : p₁ ∉ pre.map Prod.fst ∧ p₁ ∉ mid.map Prod.fst ∧
        p₁ ∉ post.map Prod.fst := by
      simpa [List.mem_append, not_or] using hq₁
    have hq2s : p₂ ∉ pre.map Prod.fst ∧ p₂ ∉ mid.map Prod.fst ∧
        p₂ ∉ post.map Prod.fst := by
      simpa [List.mem_append, not_or] using hq₂
    have hlk1 : (walkState pre []).lookup ino = none := by
      rw [walkState_lookup pre [] ino hpre]; rfl
    have hb1 : buildWalk [(p₁, FsNode.regular ino c₁)] (walkState pre []) =
        [{ name := p₁, typeflag := TarTypeflag.reg, linkname := [],
           size := c₁.length, content := some c₁ }] := by
      simp [buildWalk, walkStep, h₁, hlk1]
    have hs1 : walkState [(p₁, FsNode.regular ino c₁)] (walkState pre []) =
        (ino, p₁) :: walkState pre [] := by
      simp [walkState, walkStep, h₁, hlk1]
    have hlk2 : (walkState mid ((ino, p₁) :: walkState pre [])).lookup ino =
        some p₁ := by
      rw [walkState_lookup mid _ ino hmid]
      simp [List.lookup]
    have hb2 : buildWalk [(p₂, FsNode.regular ino c₂)]
        (walkState mid ((ino, p₁) :: walkState pre [])) =
        [{ name := p₂, typeflag := TarTypeflag.link, linkname := p₁,
           size := 0, content := none }] := by
      simp [buildWalk, walkStep, h₂, hlk2]
    simp only [buildWalk_append, walkState_append]
    rw [hb1, hs1, hb2]
    rw [List.filter_append, List.filter_append, List.filter_append,
      List.filter_append]
    rw [filter_pair_nil (buildWalk pre []) (pre.map Prod.fst) p₁ p₂
      (buildWalk_name_mem pre []) hq1s.1 hq2s.1]
    rw [filter_pair_nil (buildWalk mid ((ino, p₁) :: walkState pre []))
      (mid.map Prod.fst) p₁ p₂
      (buildWalk_name_mem mid ((ino, p₁) :: walkState pre []))
      hq1s.2.1 hq2s.2.1]
    rw [filter_pair_nil (buildWalk post (walkState
        [(p₂, FsNode.regular ino c₂)]
        (walkState mid ((ino, p₁) :: walkState pre []))))
      (post.map Prod.fst) p₁ p₂
      (buildWalk_name_mem post (walkState [(p₂, FsNode.regular ino c₂)]
        (walkState mid ((ino, p₁) :: walkState pre []))))
      hq1s.2.2 hq2s.2.2]
    simp
  · simp [buildWalk, walkStep, hsymq]

/-- Witness for C3: a five-entry traversal with one hardlinked pair, and a
one-entry symlink walk. -/
theorem C3_walker_hardlink_symlink_witness :
    (buildWalk ([(gs "a", FsNode.dir)] ++ [(gs "f1", FsNode.regular 7 [1, 2])] ++
        [] ++ [(gs "f2", FsNode.regular 7 [3])] ++ []) []).filter
        (fun e => e.name == gs "f1" || e.name == gs "f2") =
      [ { name := gs "f1", typeflag := TarTypeflag.reg, linkname := [],
          size := 2, content := some [1, 2] },
        { name := gs "f2", typeflag := TarTypeflag.link, linkname := gs "f1",
          size := 0, content := none } ] ∧
    buildWalk ((gs "s", FsNode.symlink (gs "tgt")) :: []) [] =
      { name := gs "s", typeflag := TarTypeflag.symlink, linkname := gs "tgt",
        size := 0, content := none } :: buildWalk [] [] ∧
    (TarEntry.mk (gs "s") TarTypeflag.symlink (gs "tgt") 0 none).content = none ∧
    (TarEntry.mk (gs "s") TarTypeflag.symlink (gs "tgt") 0 none).size = 0 :=
  C3_walker_hardlink_symlink [(gs "a", FsNode.dir)] [] []
    (gs "f1") (gs "f2") 7 [1, 2] [3] (gs "s") (gs "tgt") [] []
    [(gs "s", FsNode.symlink (gs "tgt"))] []
    (TarEntry.mk (gs "s") TarTypeflag.symlink (gs "tgt") 0 none)
    (by decide) (by decide) (by decide) (by decide) (by decide)
    (by decide) (by decide) (by decide) (by decide) rfl

/-- C7: once the staging directory is allocated, no path under it (itself
included) survives ImportLayer's return, on the success path and on every
error path alike. -/
theorem C7_staging_tree_removed (o : ImportOracle) (layerID : GoStr)
    (repoData : RepoData) (dockerURL : DockerURL) (parentImageID : GoStr)
    (fs : List GoStr) (htmp : o.tmpOk = true) :
    ((ImportLayer o layerID repoData dockerURL parentImageID fs).2.all
      (fun p => !(o.tmpName.isPrefixOf p))) = true := by
  unfold ImportLayer
  rw [htmp]
  rcases hb : importLayerBody o layerID repoData dockerURL parentImageID
    o.tmpName (o.tmpName :: fs) with ⟨res, fs₂⟩
  simp only [Bool.not_true, Bool.false_eq_true, if_false]
  rw [List.all_eq_true]
  intro p hp
  have := List.mem_filter.mp hp
  exact this.2

/-- Witness for C7 at the concrete oracle above. -/
theorem C7_staging_tree_removed_witness :
    ((ImportLayer c7Oracle (gs "abc123")
        (RepoData.mk [] [gs "https://r.io/v1/"]) c2URL [] [gs "/etc/hosts"]).2.all
      (fun p => !(c7Oracle.tmpName.isPrefixOf p))) = true :=
  C7_staging_tree_removed c7Oracle (gs "abc123")
    (RepoData.mk [] [gs "https://r.io/v1/"]) c2URL [] [gs "/etc/hosts"] rfl

theorem GenerateManifest_deps (layerData : DockerImageData)
    (dockerURL : DockerURL) (parentImageID : GoStr) (m : ImageManifest)
    (h : GenerateManifest layerData dockerURL parentImageID = .ok m) :
    (parentImageID = [] → m.Dependencies = []) ∧
    (parentImageID ≠ [] → m.Dependencies =
      [{ App := m.Name, ImageID := parentImageID }]) := by
  unfold GenerateManifest at h
  rcases hn : NewACName (dockerURL.IndexURL ++ gs "/" ++ dockerURL.ImageName)
    with e | name <;> rw [hn] at h
  · simp at h
  · by_cases hp : parentImageID = []
    · simp [hp] at h
      constructor
      · intro _; rw [← h]
      · intro hc; exact absurd hp hc
    · simp [hp] at h
      rcases hh : NewHash parentImageID with e | hash <;> rw [hh] at h
      · simp at h
      · have hhash := NewHash_ok hh
        simp at h
        constructor
        · intro hc; exact absurd hc hp
        · intro _; rw [← h, hhash]

theorem importLayerBody_ok (o : ImportOracle) (layerID : GoStr)
    (repoData : RepoData) (dockerURL : DockerURL) (par tmpDir : GoStr)
    (fs : List GoStr) (conv : GoStr) (m : ImageManifest) (fs' : List GoStr)
    (h : importLayerBody o layerID repoData dockerURL par tmpDir fs =
      (.ok (conv, m), fs')) :
    ∃ ld, o.layerData = some ld ∧ GenerateManifest ld dockerURL par = .ok m ∧
      conv = o.storeId := by
  unfold importLayerBody at h
  by_cases hmk : o.mkdirOk
  · rcases hep : repoData.Endpoints.head? with _ | endpoint
    · simp [hmk, hep] at h
    · rcases hjs : GetRemoteImageJSON layerID endpoint o.jsonRes with e | jb
      · simp [hmk, hep, hjs] at h
      · rcases hld : o.layerData with _ | layerData
        · simp [hmk, hep, hjs, hld] at h
        · rcases hlr : GetRemoteLayer layerID endpoint o.layerRes with e | lb
          · simp [hmk, hep, hjs, hld, hlr] at h
          · by_cases hut : o.untarOk
            · rcases hgm : GenerateManifest layerData dockerURL par
                with e | manifest
              · simp [hmk, hep, hjs, hld, hlr, hut, hgm] at h
              · by_cases hcr : o.createOk
                · by_cases hbd : o.buildOk
                  · by_cases hop : o.openOk
                    · by_cases hst : o.storeOk
                      · simp [hmk, hep, hjs, hld, hlr, hut, hgm,
                          hcr, hbd, hop, hst] at h
                        exact ⟨layerData, rfl, by rw [hgm, h.1.2],
                          h.1.1.symm⟩
                      · simp [hmk, hep, hjs, hld, hlr, hut, hgm,
                          hcr, hbd, hop, hst] at h
                    · simp [hmk, hep, hjs, hld, hlr, hut, hgm,
                        hcr, hbd, hop] at h
                  · simp [hmk, hep, hjs, hld, hlr, hut, hgm, hcr, hbd] at h
                · simp [hmk, hep, hjs, hld, hlr, hut, hgm, hcr] at h
            · simp [hmk, hep, hjs, hld, hlr, hut] at h
  · simp [hmk] at h

theorem ImportLayer_ok (o : ImportOracle) (layerID : GoStr)
    (repoData : RepoData) (dockerURL : DockerURL) (par : GoStr)
    (fs : List GoStr) (conv : GoStr) (m : ImageManifest) (fs' : List GoStr)
    (h : ImportLayer o layerID repoData dockerURL par fs = (.ok (conv, m), fs')) :
    ∃ ld, o.layerData = some ld ∧ GenerateManifest ld dockerURL par = .ok m ∧
      conv = o.storeId := by
  unfold ImportLayer at h
  by_cases ht : o.tmpOk
  · rcases hb : importLayerBody o layerID repoData dockerURL par o.tmpName
      (o.tmpName :: fs) with ⟨res, fs₂⟩
    rw [ht, hb] at h
    simp at h
    exact importLayerBody_ok o layerID repoData dockerURL par o.tmpName
      (o.tmpName :: fs) conv m fs₂ (by rw [hb, h.1])
  · simp [ht] at h

theorem runImports_ok (lo : GoStr → ImportOracle) (repoData : RepoData)
    (dockerURL : DockerURL) (l : List GoStr) :
    ∀ (par : GoStr) (fs : List GoStr) (steps : List ImportStep),
      (runImports lo repoData dockerURL l par fs).1 = .ok steps →
      steps.map ImportStep.layerID = l ∧ steps.length = l.length ∧
        chainedOk par steps = true := by
  induction l with
  | nil =>
    intro par fs steps h
    simp [runImports] at h
    subst h
    simp [chainedOk]
  | cons layerID rest ih =>
    intro par fs steps h
    simp only [runImports] at h
    rcases hIL : ImportLayer (lo layerID) layerID repoData dockerURL par fs
      with ⟨r, fsn⟩
    rw [hIL] at h
    cases r with
    | error e => simp at h
    | ok cm =>
      rcases cm with ⟨conv, m⟩
      dsimp only at h
      rcases hR : runImports lo repoData dockerURL rest conv fsn with ⟨r₂, fs₂⟩
      rw [hR] at h
      cases r₂ with
      | error e => simp at h
      | ok steps' =>
        dsimp only at h
        simp at h
        obtain ⟨hmap, hlen, hch⟩ := ih conv fsn steps' (by rw [hR])
        obtain ⟨ld, _, hgm, _⟩ :=
          ImportLayer_ok (lo layerID) layerID repoData dockerURL par fs conv m
            fsn (by rw [hIL])
        have hdeps := GenerateManifest_deps ld dockerURL par m hgm
        have hsm : stepManifestOk
            { layerID := layerID, parent := par, converted := conv,
              manifest := m } = true := by
          by_cases hp : par = []
          · simp [stepManifestOk, hp, hdeps.1 hp]
          · simp [stepManifestOk, hp, hdeps.2 hp]
        subst h
        refine ⟨?_, ?_, ?_⟩
        · simp [hmap]
        · simp [hlen]
        · simp [chainedOk, hsm, hch]

/-- C1: whenever the import loop over a successfully fetched ancestry of
length N completes, it performed exactly N imports, visiting the ancestry in
reverse (base layer first); the first import received an empty parent
identifier and every later one received the converted identifier returned by
the import before it, and each import's manifest carries exactly the
dependency its parent identifier dictates — none for the base layer, the
previous import's converted identifier otherwise. -/
theorem C1_pipeline_reverse_chain (lo : GoStr → ImportOracle)
    (repoData : RepoData) (dockerURL : DockerURL) (ancestry : List GoStr)
    (fs : List GoStr) (steps : List ImportStep)
    (h : (pipelineSteps lo repoData dockerURL ancestry fs).1 = .ok steps) :
    steps.length = ancestry.length ∧
    steps.map ImportStep.layerID = ancestry.reverse ∧
    chainedOk [] steps = true := by
  obtain ⟨hmap, hlen, hch⟩ :=
    runImports_ok lo repoData dockerURL ancestry.reverse [] fs steps h
  exact ⟨by rw [hlen, List.length_reverse], hmap, hch⟩

/-- Witness for C1 on a concrete two-layer ancestry. -/
theorem C1_pipeline_reverse_chain_witness :
    c1Steps.length = [gs "l1", gs "l2"].length ∧
    c1Steps.map ImportStep.layerID = [gs "l1", gs "l2"].reverse ∧
    chainedOk [] c1Steps = true :=
  C1_pipeline_reverse_chain c1Lo (RepoData.mk [] [gs "https://r.io/v1/"])
    c2URL [gs "l1", gs "l2"] [] c1Steps rfl
